import Mathlib

/-!
# Hospital Data Curation — verification of the cleaning/validation engine

Shallow embedding of the cleaning and validation core of the
Hospital-Data-Curation-EDA repository (`src/utils.py`, `src/data_cleaner.py`,
`src/validators.py`, `src/config.py`).

Modelling conventions:
* A pandas `DataFrame` becomes a `List` of per-dataset row structures with the
  dataset's standard columns present (the claims under study all concern the
  columns-present branches of the cleaners).
* A datetime cell is day-granular: raw input is a `RawCell` (a parsed date, a
  missing value, or an unparsable string); `pd.to_datetime(..., errors='coerce')`
  maps it to `Option Int` (`none` = `NaT`).
* Vectorised pandas comparisons follow pandas semantics: any comparison with
  `NaT`/`NaN` is `false`; arithmetic with a missing operand is missing.
* Python string methods (`strip`, `upper`, `lower`, `title`) are embedded as
  executable functions over `List Char` (ASCII case mapping, the default
  whitespace set of `str.strip`).
* Fallible Python code (`ZeroDivisionError`, pandas `IntCastingNaNError` from
  `astype(int)` on a NaN-bearing series) returns `Except String _`.
-/

namespace Hosp

/-! ## Character-level embedding of Python string primitives -/

/-- Default whitespace of Python `str.strip`: space, `\t`, `\n`, `\r`, `\v`, `\f`. -/
def pyIsSpace (c : Char) : Bool :=
  c.toNat = 32 || c.toNat = 9 || c.toNat = 10 || c.toNat = 13 || c.toNat = 11 || c.toNat = 12

/-- ASCII upper-case letter `A`-`Z`. -/
def isUp (c : Char) : Bool := 65 ≤ c.toNat && c.toNat ≤ 90

/-- ASCII lower-case letter `a`-`z`. -/
def isLow (c : Char) : Bool := 97 ≤ c.toNat && c.toNat ≤ 122

/-- ASCII letter. -/
def isAl (c : Char) : Bool := isUp c || isLow c

/-- ASCII digit `0`-`9`. -/
def isDig (c : Char) : Bool := 48 ≤ c.toNat && c.toNat ≤ 57

/-- ASCII case mapping of Python `str.upper` on one character. -/
def pyToUpper (c : Char) : Char :=
  if isLow c then Char.ofNat (c.toNat - 32) else c

/-- ASCII case mapping of Python `str.lower` on one character. -/
def pyToLower (c : Char) : Char :=
  if isUp c then Char.ofNat (c.toNat + 32) else c

theorem toNat_ofNat_of_lt {n : Nat} (h : n < 55296) : (Char.ofNat n).toNat = n := by
  unfold Char.ofNat
  rw [dif_pos (Or.inl h)]
  rfl

theorem isLow_toNat {c : Char} (h : isLow c = true) : 97 ≤ c.toNat ∧ c.toNat ≤ 122 := by
  simp [isLow] at h; exact h

theorem isUp_toNat {c : Char} (h : isUp c = true) : 65 ≤ c.toNat ∧ c.toNat ≤ 90 := by
  simp [isUp] at h; exact h

theorem toNat_pyToUpper_of_isLow {c : Char} (h : isLow c = true) :
    (pyToUpper c).toNat = c.toNat - 32 := by
  obtain ⟨h1, h2⟩ := isLow_toNat h
  simp only [pyToUpper, if_pos h]
  exact toNat_ofNat_of_lt (by omega)

theorem toNat_pyToLower_of_isUp {c : Char} (h : isUp c = true) :
    (pyToLower c).toNat = c.toNat + 32 := by
  obtain ⟨h1, h2⟩ := isUp_toNat h
  simp only [pyToLower, if_pos h]
  exact toNat_ofNat_of_lt (by omega)

theorem isUp_pyToUpper_of_isLow {c : Char} (h : isLow c = true) :
    isUp (pyToUpper c) = true := by
  obtain ⟨h1, h2⟩ := isLow_toNat h
  simp [isUp, toNat_pyToUpper_of_isLow h]; omega

theorem isLow_pyToLower_of_isUp {c : Char} (h : isUp c = true) :
    isLow (pyToLower c) = true := by
  obtain ⟨h1, h2⟩ := isUp_toNat h
  simp [isLow, toNat_pyToLower_of_isUp h]; omega

theorem isAl_pyToUpper (c : Char) : isAl (pyToUpper c) = isAl c := by
  by_cases h : isLow c
  · have := isUp_pyToUpper_of_isLow h
    simp [isAl, this, h]
  · simp [pyToUpper, h]

theorem isAl_pyToLower (c : Char) : isAl (pyToLower c) = isAl c := by
  by_cases h : isUp c
  · have := isLow_pyToLower_of_isUp h
    simp [isAl, this, h]
  · simp [pyToLower, h]

theorem pyToUpper_idem (c : Char) : pyToUpper (pyToUpper c) = pyToUpper c := by
  by_cases h : isLow c
  · have hu := isUp_pyToUpper_of_isLow h
    have hnl : isLow (pyToUpper c) = false := by
      obtain ⟨h1, h2⟩ := isLow_toNat h
      simp [isLow, toNat_pyToUpper_of_isLow h]; omega
    rw [pyToUpper, if_neg (by simp [hnl])]
  · have hc : pyToUpper c = c := by simp [pyToUpper, h]
    rw [hc, hc]

theorem pyToLower_idem (c : Char) : pyToLower (pyToLower c) = pyToLower c := by
  by_cases h : isUp c
  · have hnl : isUp (pyToLower c) = false := by
      obtain ⟨h1, h2⟩ := isUp_toNat h
      simp [isUp, toNat_pyToLower_of_isUp h]; omega
    rw [pyToLower, if_neg (by simp [hnl])]
  · have hc : pyToLower c = c := by simp [pyToLower, h]
    rw [hc, hc]

theorem pyIsSpace_pyToUpper (c : Char) : pyIsSpace (pyToUpper c) = pyIsSpace c := by
  by_cases h : isLow c
  · obtain ⟨h1, h2⟩ := isLow_toNat h
    have ha : pyIsSpace (pyToUpper c) = false := by
      simp [pyIsSpace, toNat_pyToUpper_of_isLow h]; omega
    have hb : pyIsSpace c = false := by
      simp [pyIsSpace]; omega
    rw [ha, hb]
  · simp [pyToUpper, h]

theorem pyIsSpace_pyToLower (c : Char) : pyIsSpace (pyToLower c) = pyIsSpace c := by
  by_cases h : isUp c
  · obtain ⟨h1, h2⟩ := isUp_toNat h
    have ha : pyIsSpace (pyToLower c) = false := by
      simp [pyIsSpace, toNat_pyToLower_of_isUp h]; omega
    have hb : pyIsSpace c = false := by
      simp [pyIsSpace]; omega
    rw [ha, hb]
  · simp [pyToLower, h]

/-! ## List-of-characters embedding of Python `str.strip`, `str.upper`,
`str.lower`, `str.title` -/

/-- Python `str.strip()` (no argument): drop whitespace from both ends. -/
def pyStripL (l : List Char) : List Char :=
  ((l.dropWhile pyIsSpace).reverse.dropWhile pyIsSpace).reverse

/-- Python `str.upper()` on a character list. -/
def pyUpperL (l : List Char) : List Char := l.map pyToUpper

/-- Python `str.lower()` on a character list. -/
def pyLowerL (l : List Char) : List Char := l.map pyToLower

/-- Python `str.title()` worker: the flag records whether the previous
character of the string was a letter (letters directly after a letter are
lower-cased, letters starting a word are upper-cased). -/
def pyTitleAux : Bool → List Char → List Char
  | _, [] => []
  | prevAl, c :: cs =>
    let c2 := if isAl c then (if prevAl then pyToLower c else pyToUpper c) else c
    c2 :: pyTitleAux (isAl c2) cs

/-- Python `str.title()` on a character list. -/
def pyTitleL (l : List Char) : List Char := pyTitleAux false l

theorem pyUpperL_idem (l : List Char) : pyUpperL (pyUpperL l) = pyUpperL l := by
  simp only [pyUpperL, List.map_map]
  exact List.map_congr_left (fun c _ => pyToUpper_idem c)

theorem pyTitleAux_idem (l : List Char) :
    ∀ b, pyTitleAux b (pyTitleAux b l) = pyTitleAux b l := by
  induction l with
  | nil => intro b; rfl
  | cons c cs ih =>
    intro b
    by_cases hal : isAl c
    · cases b with
      | true =>
        have step : pyTitleAux true (c :: cs) =
            pyToLower c :: pyTitleAux (isAl (pyToLower c)) cs := by
          simp [pyTitleAux, hal]
        rw [step]
        have hal2 : isAl (pyToLower c) = true := by rw [isAl_pyToLower]; exact hal
        have step2 : pyTitleAux true (pyToLower c :: pyTitleAux (isAl (pyToLower c)) cs) =
            pyToLower (pyToLower c) ::
              pyTitleAux (isAl (pyToLower (pyToLower c))) (pyTitleAux (isAl (pyToLower c)) cs) := by
          simp [pyTitleAux, hal2]
        rw [step2, pyToLower_idem, hal2, ih]
      | false =>
        have step : pyTitleAux false (c :: cs) =
            pyToUpper c :: pyTitleAux (isAl (pyToUpper c)) cs := by
          simp [pyTitleAux, hal]
        rw [step]
        have hal2 : isAl (pyToUpper c) = true := by rw [isAl_pyToUpper]; exact hal
        have step2 : pyTitleAux false (pyToUpper c :: pyTitleAux (isAl (pyToUpper c)) cs) =
            pyToUpper (pyToUpper c) ::
              pyTitleAux (isAl (pyToUpper (pyToUpper c))) (pyTitleAux (isAl (pyToUpper c)) cs) := by
          simp [pyTitleAux, hal2]
        rw [step2, pyToUpper_idem, hal2, ih]
    · have hstep : ∀ m, pyTitleAux b (c :: m) = c :: pyTitleAux (isAl c) m := by
        intro m; simp [pyTitleAux, hal]
      rw [hstep, hstep, ih]

theorem pyTitleL_idem (l : List Char) : pyTitleL (pyTitleL l) = pyTitleL l :=
  pyTitleAux_idem l false

theorem pyTitleAux_isSpace (l : List Char) :
    ∀ b, (pyTitleAux b l).map pyIsSpace = l.map pyIsSpace := by
  induction l with
  | nil => intro b; rfl
  | cons c cs ih =>
    intro b
    by_cases hal : isAl c
    · cases b with
      | true =>
        have step : pyTitleAux true (c :: cs) =
            pyToLower c :: pyTitleAux (isAl (pyToLower c)) cs := by
          simp [pyTitleAux, hal]
        simp [step, pyIsSpace_pyToLower, ih]
      | false =>
        have step : pyTitleAux false (c :: cs) =
            pyToUpper c :: pyTitleAux (isAl (pyToUpper c)) cs := by
          simp [pyTitleAux, hal]
        simp [step, pyIsSpace_pyToUpper, ih]
    · have step : pyTitleAux b (c :: cs) = c :: pyTitleAux (isAl c) cs := by
        simp [pyTitleAux, hal]
      simp [step, ih]

theorem pyUpperL_isSpace (l : List Char) :
    (pyUpperL l).map pyIsSpace = l.map pyIsSpace := by
  simp only [pyUpperL, List.map_map]
  exact List.map_congr_left (fun c _ => pyIsSpace_pyToUpper c)

theorem head_false_of_dropWhile_eq_self {p : Char → Bool} {l : List Char}
    (h : l.dropWhile p = l) : ∀ c, l.head? = some c → p c = false := by
  intro c hc
  cases l with
  | nil => simp at hc
  | cons a t =>
    have ha : a = c := by simpa [List.head?] using hc
    subst ha
    by_cases hp : p a
    · rw [List.dropWhile_cons, if_pos hp] at h
      have hle := (List.dropWhile_sublist (l := t) p).length_le
      have hlen := congrArg List.length h
      simp only [List.length_cons] at hlen
      omega
    · simpa using hp

theorem dropWhile_eq_self_of_head {p : Char → Bool} {l : List Char}
    (h : ∀ c, l.head? = some c → p c = false) : l.dropWhile p = l := by
  cases l with
  | nil => rfl
  | cons a t =>
    have := h a rfl
    rw [List.dropWhile_cons, if_neg (by simp [this])]

theorem head?_dropWhile_false (p : Char → Bool) (l : List Char) :
    ∀ c, (l.dropWhile p).head? = some c → p c = false := by
  intro c hc
  have hmatch := List.head?_dropWhile_not p l
  rw [hc] at hmatch
  exact hmatch

theorem dropWhile_pyStripL (l : List Char) :
    (pyStripL l).dropWhile pyIsSpace = pyStripL l := by
  apply dropWhile_eq_self_of_head
  intro c hc
  unfold pyStripL at hc
  rw [List.head?_reverse] at hc
  obtain ⟨t, ht⟩ := (List.dropWhile_suffix (l := (l.dropWhile pyIsSpace).reverse) pyIsSpace)
  have hlast : ((l.dropWhile pyIsSpace).reverse).getLast? = some c := by
    rw [← ht, List.getLast?_append, hc]; rfl
  rw [List.getLast?_reverse] at hlast
  exact head?_dropWhile_false pyIsSpace l c hlast

theorem reverse_dropWhile_pyStripL (l : List Char) :
    (pyStripL l).reverse.dropWhile pyIsSpace = (pyStripL l).reverse := by
  unfold pyStripL
  rw [List.reverse_reverse]
  exact List.dropWhile_idempotent pyIsSpace _

theorem pyStripL_idem (l : List Char) : pyStripL (pyStripL l) = pyStripL l := by
  conv_lhs => rw [pyStripL, dropWhile_pyStripL, reverse_dropWhile_pyStripL,
    List.reverse_reverse]

theorem pyStripL_eq_self_of_pattern {l₁ l₂ : List Char}
    (hp : l₁.map pyIsSpace = l₂.map pyIsSpace) (h : pyStripL l₁ = l₁) :
    pyStripL l₂ = l₂ := by
  have hlen : l₁.length = l₂.length := by
    have := congrArg List.length hp; simpa using this
  have h1 : l₁.dropWhile pyIsSpace = l₁ := by
    apply (List.dropWhile_suffix pyIsSpace).eq_of_length
    have hlen1 := congrArg List.length h
    unfold pyStripL at hlen1
    simp only [List.length_reverse] at hlen1
    have hle1 := (List.dropWhile_sublist (l := l₁) pyIsSpace).length_le
    have hle2 :=
      (List.dropWhile_sublist (l := (l₁.dropWhile pyIsSpace).reverse) pyIsSpace).length_le
    simp only [List.length_reverse] at hle2
    omega
  have h2 : l₁.reverse.dropWhile pyIsSpace = l₁.reverse := by
    have : pyStripL l₁ = (l₁.reverse.dropWhile pyIsSpace).reverse := by
      rw [pyStripL, h1]
    rw [h] at this
    have := congrArg List.reverse this
    simpa using this.symm
  have hg1 : l₂.dropWhile pyIsSpace = l₂ := by
    apply dropWhile_eq_self_of_head
    intro c hc
    have hh : (l₁.map pyIsSpace).head? = (l₂.map pyIsSpace).head? := by rw [hp]
    rw [List.head?_map, List.head?_map, hc] at hh
    cases hh1 : l₁.head? with
    | none => rw [hh1] at hh; simp at hh
    | some c₁ =>
      rw [hh1] at hh
      simp only [Option.map_some'] at hh
      have := head_false_of_dropWhile_eq_self h1 c₁ hh1
      rw [← Option.some_inj.mp hh]
      exact this
  have hg2 : l₂.reverse.dropWhile pyIsSpace = l₂.reverse := by
    apply dropWhile_eq_self_of_head
    intro c hc
    have hp' : l₁.reverse.map pyIsSpace = l₂.reverse.map pyIsSpace := by
      rw [List.map_reverse, List.map_reverse, hp]
    have hh : (l₁.reverse.map pyIsSpace).head? = (l₂.reverse.map pyIsSpace).head? := by
      rw [hp']
    rw [List.head?_map, List.head?_map, hc] at hh
    cases hh1 : l₁.reverse.head? with
    | none => rw [hh1] at hh; simp at hh
    | some c₁ =>
      rw [hh1] at hh
      simp only [Option.map_some'] at hh
      have := head_false_of_dropWhile_eq_self h2 c₁ hh1
      rw [← Option.some_inj.mp hh]
      exact this
  rw [pyStripL, hg1, hg2, List.reverse_reverse]

theorem pyStripL_pyTitleL_pyStripL (l : List Char) :
    pyStripL (pyTitleL (pyStripL l)) = pyTitleL (pyStripL l) := by
  exact pyStripL_eq_self_of_pattern (pyTitleAux_isSpace (pyStripL l) false).symm
    (pyStripL_idem l)

theorem pyStripL_pyUpperL_pyStripL (l : List Char) :
    pyStripL (pyUpperL (pyStripL l)) = pyUpperL (pyStripL l) := by
  exact pyStripL_eq_self_of_pattern (pyUpperL_isSpace (pyStripL l)).symm
    (pyStripL_idem l)

theorem titleStripL_idem (l : List Char) :
    pyTitleL (pyStripL (pyTitleL (pyStripL l))) = pyTitleL (pyStripL l) := by
  rw [pyStripL_pyTitleL_pyStripL, pyTitleL_idem]

theorem upperStripL_idem (l : List Char) :
    pyUpperL (pyStripL (pyUpperL (pyStripL l))) = pyUpperL (pyStripL l) := by
  rw [pyStripL_pyUpperL_pyStripL, pyUpperL_idem]

/-! ## String-level wrappers -/

/-- Python `str.strip()` on a `String`. -/
def pyStripStr (s : String) : String := String.mk (pyStripL s.data)

/-- Python `str.upper()` on a `String`. -/
def pyUpperStr (s : String) : String := String.mk (pyUpperL s.data)

/-- Python `str.lower()` on a `String`. -/
def pyLowerStr (s : String) : String := String.mk (pyLowerL s.data)

/-- Python `str.title()` on a `String`. -/
def pyTitleStr (s : String) : String := String.mk (pyTitleL s.data)

theorem titleStripStr_idem (s : String) :
    pyTitleStr (pyStripStr (pyTitleStr (pyStripStr s))) = pyTitleStr (pyStripStr s) := by
  simp only [pyTitleStr, pyStripStr]
  exact congrArg String.mk (titleStripL_idem s.data)

theorem upperStripStr_idem (s : String) :
    pyUpperStr (pyStripStr (pyUpperStr (pyStripStr s))) = pyUpperStr (pyStripStr s) := by
  simp only [pyUpperStr, pyStripStr]
  exact congrArg String.mk (upperStripL_idem s.data)

/-! ## Configuration constants (`src/config.py`) -/

def MAX_AGE : Int := 120
def MIN_AGE : Int := 0
def MAX_LOS_DAYS : Int := 365
def MIN_LOS_DAYS : Int := 0

/-! ## Format validators (`src/utils.py`) -/

/-- Matcher for the fixed configured ICD-10 pattern
`^[A-Z][0-9][0-9A-Z](\.[0-9A-Z]{1,4})?$` (`ICD10_PATTERN` in `src/config.py`),
anchored at both ends as `re.match` with the trailing `$` is on this pattern. -/
def icdMatch (s : String) : Bool :=
  match s.data with
  | c0 :: c1 :: c2 :: rest =>
    isUp c0 && isDig c1 && (isDig c2 || isUp c2) &&
    (match rest with
     | [] => true
     | d :: ds =>
       d.toNat = 46 && decide (1 ≤ ds.length) && decide (ds.length ≤ 4) &&
         ds.all (fun c => isDig c || isUp c))
  | _ => false

/-- `validate_icd10_code` (`src/utils.py` lines 131-137): `pd.isna(code)` gives
`False` for a missing code, otherwise the pattern is matched against
`str(code)` — the function itself performs no trimming or upper-casing. -/
def validate_icd10_code : Option String → Bool
  | none => false
  | some s => icdMatch s

/-! ## Datetime cells and pandas vectorised semantics -/

/-- A raw cell of a date column: a value that parses to a (day-granular)
date, a missing value, or a string `pd.to_datetime(..., errors='coerce')`
fails to parse. -/
inductive RawCell where
  | missing
  | unparsable
  | date (d : Int)
deriving DecidableEq, Repr

/-- `pd.to_datetime(col, errors='coerce')`: missing and unparsable cells both
coerce to `NaT` (`none`). -/
def toDatetime : RawCell → Option Int
  | .missing => none
  | .unparsable => none
  | .date d => some d

/-- Writing a parsed datetime column back into a frame: `NaT` is a missing
cell, a date is a date. -/
def embedDate : Option Int → RawCell
  | none => .missing
  | some d => .date d

theorem toDatetime_embedDate (x : Option Int) : toDatetime (embedDate x) = x := by
  cases x <;> rfl

/-- pandas `<` on datetime/numeric cells: any comparison with `NaT`/`NaN` is
`False`. -/
def optLt (a b : Option Int) : Bool :=
  match a, b with
  | some x, some y => decide (x < y)
  | _, _ => false

/-- pandas `>` on datetime/numeric cells: any comparison with `NaT`/`NaN` is
`False`. -/
def optGt (a b : Option Int) : Bool :=
  match a, b with
  | some x, some y => decide (y < x)
  | _, _ => false

/-- pandas subtraction (then `.dt.days`): missing if either operand is. -/
def optSub (a b : Option Int) : Option Int :=
  match a, b with
  | some x, some y => some (x - y)
  | _, _ => none

/-! ## `df.duplicated(subset=..., keep='first')` followed by `df[~...]` -/

/-- Rows whose key was already seen are dropped; the first occurrence of each
key is kept, in the original order. -/
def dedupFirstGo [DecidableEq κ] (key : α → κ) (seen : List κ) : List α → List α
  | [] => []
  | x :: xs =>
    if key x ∈ seen then dedupFirstGo key seen xs
    else x :: dedupFirstGo key (key x :: seen) xs

/-- `df[~df.duplicated(subset=[key], keep='first')]`. -/
def dedupFirst [DecidableEq κ] (key : α → κ) (l : List α) : List α :=
  dedupFirstGo key [] l

theorem dedupFirstGo_length_le [DecidableEq κ] (key : α → κ) :
    ∀ (l : List α) (seen : List κ), (dedupFirstGo key seen l).length ≤ l.length := by
  intro l
  induction l with
  | nil => intro seen; simp [dedupFirstGo]
  | cons x xs ih =>
    intro seen
    by_cases h : key x ∈ seen
    · simp only [dedupFirstGo, if_pos h, List.length_cons]
      exact Nat.le_succ_of_le (ih seen)
    · simp only [dedupFirstGo, if_neg h, List.length_cons]
      exact Nat.succ_le_succ (ih (key x :: seen))

theorem dedupFirst_length_le [DecidableEq κ] (key : α → κ) (l : List α) :
    (dedupFirst key l).length ≤ l.length :=
  dedupFirstGo_length_le key l []

theorem mem_of_mem_dedupFirstGo [DecidableEq κ] (key : α → κ) :
    ∀ (l : List α) (seen : List κ) (a : α), a ∈ dedupFirstGo key seen l → a ∈ l := by
  intro l
  induction l with
  | nil => intro seen a h; simp [dedupFirstGo] at h
  | cons x xs ih =>
    intro seen a h
    by_cases hx : key x ∈ seen
    · simp only [dedupFirstGo, if_pos hx] at h
      exact List.mem_cons_of_mem x (ih seen a h)
    · simp only [dedupFirstGo, if_neg hx] at h
      rcases List.mem_cons.mp h with h1 | h1
      · exact h1 ▸ List.mem_cons_self x xs
      · exact List.mem_cons_of_mem x (ih (key x :: seen) a h1)

theorem mem_of_mem_dedupFirst [DecidableEq κ] (key : α → κ) (l : List α) (a : α)
    (h : a ∈ dedupFirst key l) : a ∈ l :=
  mem_of_mem_dedupFirstGo key l [] a h

theorem nodup_keys_dedupFirstGo [DecidableEq κ] (key : α → κ) :
    ∀ (l : List α) (seen : List κ),
      ((dedupFirstGo key seen l).map key).Nodup ∧
        ∀ a ∈ dedupFirstGo key seen l, key a ∉ seen := by
  intro l
  induction l with
  | nil => intro seen; constructor
           · simp [dedupFirstGo]
           · simp [dedupFirstGo]
  | cons x xs ih =>
    intro seen
    by_cases hx : key x ∈ seen
    · simpa only [dedupFirstGo, if_pos hx] using ih seen
    · obtain ⟨ihn, ihs⟩ := ih (key x :: seen)
      simp only [dedupFirstGo, if_neg hx]
      constructor
      · simp only [List.map_cons, List.nodup_cons]
        refine ⟨?_, ihn⟩
        intro hmem
        obtain ⟨a, ha, hkey⟩ := List.mem_map.mp hmem
        exact ihs a ha (hkey ▸ List.mem_cons_self (key x) seen)
      · intro a ha
        rcases List.mem_cons.mp ha with h1 | h1
        · exact h1 ▸ hx
        · intro hmem
          exact ihs a h1 (List.mem_cons_of_mem _ hmem)

theorem nodup_keys_dedupFirst [DecidableEq κ] (key : α → κ) (l : List α) :
    ((dedupFirst key l).map key).Nodup :=
  (nodup_keys_dedupFirstGo key l []).1

theorem dedupFirstGo_eq_self [DecidableEq κ] (key : α → κ) :
    ∀ (l : List α) (seen : List κ),
      (l.map key).Nodup → (∀ a ∈ l, key a ∉ seen) → dedupFirstGo key seen l = l := by
  intro l
  induction l with
  | nil => intro seen _ _; rfl
  | cons x xs ih =>
    intro seen hnd hs
    have hx : key x ∉ seen := hs x (List.mem_cons_self x xs)
    simp only [dedupFirstGo, if_neg hx]
    congr 1
    simp only [List.map_cons, List.nodup_cons] at hnd
    apply ih (key x :: seen) hnd.2
    intro a ha
    intro hmem
    rcases List.mem_cons.mp hmem with h1 | h1
    · exact hnd.1 (h1 ▸ List.mem_map_of_mem key ha)
    · exact hs a (List.mem_cons_of_mem x ha) h1

theorem dedupFirst_eq_self [DecidableEq κ] (key : α → κ) (l : List α)
    (h : (l.map key).Nodup) : dedupFirst key l = l :=
  dedupFirstGo_eq_self key l [] h (by simp)

/-! ## Cleaning report (`DataCleaner.cleaning_report`) -/

/-- One entry of `self.cleaning_report`. -/
structure CleanEntry where
  dataset : String
  initial_rows : Nat
  final_rows : Nat
  removed_rows : Int
deriving DecidableEq, Repr

/-! ## Patients cleaning (`clean_patients_data` and helpers) -/

/-- A row of the patients frame with its standard columns; `age` is the
column `clean_patients_data` (re)computes. -/
structure PatientRow where
  patient_id : String
  gender : Option String
  date_of_birth : RawCell
  age : Int
deriving DecidableEq, Repr

/-- The lookup table of `_standardize_gender` (`src/data_cleaner.py`
lines 227-231), an exact-token association list. -/
def gender_mapping : List (String × String) :=
  [("M", "Male"), ("m", "Male"), ("male", "Male"), ("MALE", "Male"),
   ("F", "Female"), ("f", "Female"), ("female", "Female"), ("FEMALE", "Female"),
   ("O", "Other"), ("o", "Other"), ("other", "Other"), ("OTHER", "Other")]

/-- `_handle_missing_patient_info`: `df['gender'].fillna('Unknown')`. -/
def _handle_missing_patient_info (df : List PatientRow) : List PatientRow :=
  df.map (fun r => { r with gender := some (r.gender.getD "Unknown") })

/-- The per-cell effect of `_standardize_gender`:
`df['gender'].map(gender_mapping).fillna('Unknown')`. -/
def standardizeGenderCell (g : Option String) : String :=
  (g.bind (fun v => gender_mapping.lookup v)).getD "Unknown"

/-- `_standardize_gender` on the frame. -/
def _standardize_gender (df : List PatientRow) : List PatientRow :=
  df.map (fun r => { r with gender := some (standardizeGenderCell r.gender) })

/-- The composed per-cell gender treatment of `clean_patients_data`:
`_handle_missing_patient_info` then `_standardize_gender`. -/
def genderPipeline (g : Option String) : String :=
  standardizeGenderCell (some (g.getD "Unknown"))

/-- `_clean_date_of_birth` with `pd.Timestamp.now()` passed in as `now`:
parse with coercion, then drop rows with `date_of_birth > now`
(a `NaT` compares `False`, so such rows are kept). -/
def _clean_date_of_birth (now : Int) (df : List PatientRow) : List PatientRow :=
  let parsed := df.map (fun r => { r with date_of_birth := embedDate (toDatetime r.date_of_birth) })
  parsed.filter (fun r => !(optGt (toDatetime r.date_of_birth) (some now)))

/-- The age `calculate_age` computes for one row:
`(reference_date - dob).dt.days / 365.25` cast by `astype(int)`, which
truncates toward zero. Since `365.25 = 1461/4` exactly, this equals the
zero-truncated integer division of `4 * (now - d)` by `1461`. -/
def ageFrom (now d : Int) : Int := Int.tdiv ((now - d) * 4) 1461

/-- `clean_patients_data` (`src/data_cleaner.py` lines 38-72).
`calculate_age` ends in `age.astype(int)`; pandas raises
`IntCastingNaNError` when the series holds a `NaN` — i.e. whenever a
surviving row's `date_of_birth` coerced to `NaT` — so the embedding returns
`Except.error` there and no report entry is appended. -/
def clean_patients_data (now : Int) (report : List CleanEntry) (df : List PatientRow) :
    Except String (List CleanEntry × List PatientRow) :=
  let initial := df.length
  let df1 := _handle_missing_patient_info df
  let df2 := _standardize_gender df1
  let df3 := _clean_date_of_birth now df2
  if df3.any (fun r => (toDatetime r.date_of_birth).isNone) then
    Except.error "IntCastingNaNError"
  else
    let df4 := df3.map (fun r => { r with age := ageFrom now ((toDatetime r.date_of_birth).getD 0) })
    let df5 := df4.filter (fun r => decide (MIN_AGE ≤ r.age) && decide (r.age ≤ MAX_AGE))
    let df6 := dedupFirst (fun r => r.patient_id) df5
    Except.ok
      (report ++ [{ dataset := "patients", initial_rows := initial,
                    final_rows := df6.length,
                    removed_rows := (initial : Int) - (df6.length : Int) }], df6)

/-! ## Visits cleaning (`clean_visits_data`) -/

/-- A row of the visits frame with its standard columns; `length_of_stay` is
the column `clean_visits_data` recomputes. -/
structure VisitRow where
  visit_id : String
  patient_id : String
  admission_date : RawCell
  discharge_date : RawCell
  length_of_stay : Option Int
deriving DecidableEq, Repr

/-- The invalid-length-of-stay mask
`(los < MIN_LOS_DAYS) | (los > MAX_LOS_DAYS)` (`NaN` compares `False`). -/
def losInvalid (los : Option Int) : Bool :=
  optLt los (some MIN_LOS_DAYS) || optGt los (some MAX_LOS_DAYS)

/-- `clean_visits_data` (`src/data_cleaner.py` lines 74-116). -/
def clean_visits_data (report : List CleanEntry) (df : List VisitRow) :
    List CleanEntry × List VisitRow :=
  let initial := df.length
  let df1 := df.map (fun r =>
    { r with admission_date := embedDate (toDatetime r.admission_date),
             discharge_date := embedDate (toDatetime r.discharge_date) })
  let df2 := df1.filter (fun r =>
    !(optLt (toDatetime r.discharge_date) (toDatetime r.admission_date)))
  let df3 := df2.map (fun r =>
    { r with length_of_stay := optSub (toDatetime r.discharge_date) (toDatetime r.admission_date) })
  let df4 := df3.filter (fun r => !(losInvalid r.length_of_stay))
  let df5 := dedupFirst (fun r => r.visit_id) df4
  (report ++ [{ dataset := "visits", initial_rows := initial,
                final_rows := df5.length,
                removed_rows := (initial : Int) - (df5.length : Int) }], df5)

/-! ## Diagnoses cleaning (`clean_diagnoses_data`) -/

/-- A row of the diagnoses frame; `icd_code_valid` is the flag column the
cleaner attaches. -/
structure DiagnosisRow where
  visit_id : String
  icd_code : Option String
  icd_code_valid : Bool
deriving DecidableEq, Repr

/-- Python `str(cell)` on a possibly-missing string cell: `str(nan)` is the
literal `"nan"`. -/
def pyStr : Option String → String
  | none => "nan"
  | some s => s

/-- `df['icd_code'].astype(str).str.strip().str.upper()` on one cell. -/
def normIcd (icd : Option String) : String := pyUpperStr (pyStripStr (pyStr icd))

/-- `clean_diagnoses_data` (`src/data_cleaner.py` lines 118-149): normalize
codes, flag invalid ones (never dropping them), drop duplicate
`(visit_id, icd_code)` pairs. -/
def clean_diagnoses_data (report : List CleanEntry) (df : List DiagnosisRow) :
    List CleanEntry × List DiagnosisRow :=
  let initial := df.length
  let df1 := df.map (fun r => { r with icd_code := some (normIcd r.icd_code) })
  let df2 := df1.map (fun r => { r with icd_code_valid := validate_icd10_code r.icd_code })
  let df3 := dedupFirst (fun r => (r.visit_id, r.icd_code)) df2
  (report ++ [{ dataset := "diagnoses", initial_rows := initial,
                final_rows := df3.length,
                removed_rows := (initial : Int) - (df3.length : Int) }], df3)

/-! ## Medications cleaning (`clean_medications_data`) -/

/-- A row of the medications frame; both critical columns may hold missing
values in raw data. -/
structure MedicationRow where
  visit_id : Option String
  medication_name : Option String
deriving DecidableEq, Repr

/-- `clean_medications_data` (`src/data_cleaner.py` lines 151-181):
`.str.strip().str.title()` (skipping missing cells), `dropna` on the critical
columns, drop duplicate `(visit_id, medication_name)` pairs. -/
def clean_medications_data (report : List CleanEntry) (df : List MedicationRow) :
    List CleanEntry × List MedicationRow :=
  let initial := df.length
  let df1 := df.map (fun r =>
    { r with medication_name := r.medication_name.map (fun s => pyTitleStr (pyStripStr s)) })
  let df2 := df1.filter (fun r => r.visit_id.isSome && r.medication_name.isSome)
  let df3 := dedupFirst (fun r => (r.visit_id, r.medication_name)) df2
  (report ++ [{ dataset := "medications", initial_rows := initial,
                final_rows := df3.length,
                removed_rows := (initial : Int) - (df3.length : Int) }], df3)

/-! ## Staff cleaning (`clean_staff_data`) -/

/-- A row of the staff frame (with the `staff_name` variant of the name
column). -/
structure StaffRow where
  staff_id : String
  staff_name : Option String
deriving DecidableEq, Repr

/-- `clean_staff_data` (`src/data_cleaner.py` lines 183-210). -/
def clean_staff_data (report : List CleanEntry) (df : List StaffRow) :
    List CleanEntry × List StaffRow :=
  let initial := df.length
  let df1 := df.map (fun r =>
    { r with staff_name := r.staff_name.map (fun s => pyTitleStr (pyStripStr s)) })
  let df2 := dedupFirst (fun r => r.staff_id) df1
  (report ++ [{ dataset := "staff", initial_rows := initial,
                final_rows := df2.length,
                removed_rows := (initial : Int) - (df2.length : Int) }], df2)

/-! ## Validators (`src/validators.py`) -/

/-- One entry of a `results['checks']` list. -/
structure VCheck where
  test : String
  passed : Bool
  message : String
deriving DecidableEq, Repr

/-- One entry of `DataValidator.validation_results`. -/
structure VResult where
  dataset : String
  checks : List VCheck
deriving DecidableEq, Repr

/-- `validate_referential_integrity` (`src/validators.py` lines 151-173), in
the branch where both frames carry a `patient_id` column: the check passes
iff every `patient_id` of visits occurs among the patients' ids, and the
failure message carries `(~isin).sum()`, the exact orphan count. Returns the
updated `validation_results` list and the appended result. -/
def validate_referential_integrity (results : List VResult)
    (patients : List PatientRow) (visits : List VisitRow) : List VResult × VResult :=
  let pids := patients.map (fun r => r.patient_id)
  let valid_patients := visits.all (fun v => pids.contains v.patient_id)
  let orphaned := (visits.filter (fun v => !(pids.contains v.patient_id))).length
  let check : VCheck :=
    { test := "visits_patient_id_exists",
      passed := valid_patients,
      message := if valid_patients then "all patient ids in visits exist in patients table"
                 else s!"found {orphaned} orphaned patient ids in visits" }
  let res : VResult := { dataset := "referential_integrity", checks := [check] }
  (results ++ [res], res)

/-- Python `/`: raises `ZeroDivisionError` on a zero denominator. -/
def pyDivQ (a b : ℚ) : Except String ℚ :=
  if b = 0 then Except.error "ZeroDivisionError" else Except.ok (a / b)

/-- `generate_validation_report` (`src/validators.py` lines 175-216), report
text as a list of lines.  The summary line computes
`passed_checks/total_checks*100` with a plain Python division, which raises
`ZeroDivisionError` when no checks were accumulated. -/
def generate_validation_report (results : List VResult) : Except String (List String) :=
  let banner := String.mk (List.replicate 80 '=')
  let dash := String.mk (List.replicate 80 '-')
  let header := [banner, "DATA VALIDATION REPORT", banner, ""]
  let body := results.flatMap (fun res =>
    [s!"\nDataset: {res.dataset}", dash] ++
      res.checks.flatMap (fun c =>
        [(if c.passed then "✓ PASS" else "✗ FAIL") ++ s!" | {c.test}",
         s!"       {c.message}", ""]))
  let total_checks : Nat := results.foldl (fun acc r => acc + r.checks.length) 0
  let passed_checks : Nat := results.foldl
    (fun acc r => acc + (r.checks.filter (fun c => c.passed)).length) 0
  match pyDivQ (passed_checks : ℚ) (total_checks : ℚ) with
  | Except.error e => Except.error e
  | Except.ok frac =>
    let pct := frac * 100
    Except.ok (header ++ body ++
      [banner, s!"SUMMARY: {passed_checks}/{total_checks} checks passed ({pct}%)", banner])

/-! ## Outlier detection (`detect_outliers_iqr`, `src/utils.py` lines 71-81) -/

/-- Insertion of a value into a sorted list (ascending). -/
def insertSorted (x : ℚ) : List ℚ → List ℚ
  | [] => [x]
  | y :: ys => if x ≤ y then x :: y :: ys else y :: insertSorted x ys

/-- Ascending sort, as the order statistics underlying `Series.quantile`. -/
def sortQ : List ℚ → List ℚ
  | [] => []
  | x :: xs => insertSorted x (sortQ xs)

/-- `Series.quantile(q)` with the default linear interpolation: with the
sorted values `x_0 ≤ … ≤ x_(n-1)` and `h = (n-1)·q`, the result is
`x_⌊h⌋ + (h - ⌊h⌋) · (x_(⌊h⌋+1) - x_⌊h⌋)`. -/
def quantileLinear (s : List ℚ) (q : ℚ) : ℚ :=
  let sorted := sortQ s
  let n := sorted.length
  if n = 0 then 0
  else
    let h : ℚ := ((n : ℚ) - 1) * q
    let i := (⌊h⌋).toNat
    let frac := h - (⌊h⌋ : ℚ)
    let lo := sorted.getD i 0
    let hi := sorted.getD (min (i + 1) (n - 1)) 0
    lo + frac * (hi - lo)

/-- `detect_outliers_iqr(series, multiplier)`: IQR bounds and the boolean
mask `(series < lower_bound) | (series > upper_bound)`. -/
def detect_outliers_iqr (series : List ℚ) (multiplier : ℚ) : List Bool :=
  let q1 := quantileLinear series (1 / 4)
  let q3 := quantileLinear series (3 / 4)
  let iqr := q3 - q1
  let lower_bound := q1 - multiplier * iqr
  let upper_bound := q3 + multiplier * iqr
  series.map (fun v => decide (v < lower_bound) || decide (upper_bound < v))

/-! ## Helper lemmas about the cleaned frames -/

theorem map_eq_self_of_mem {α : Type} {f : α → α} {l : List α}
    (h : ∀ a ∈ l, f a = a) : l.map f = l :=
  (List.map_congr_left h).trans (List.map_id l)

/-- Every row surviving `clean_visits_data` passed the date-order filter, has
`length_of_stay` recomputed from its (already-normalized) parsed dates, and
passed the length-of-stay filter. -/
theorem clean_visits_mem (report : List CleanEntry) (df : List VisitRow) (r : VisitRow)
    (hr : r ∈ (clean_visits_data report df).2) :
    embedDate (toDatetime r.admission_date) = r.admission_date ∧
    embedDate (toDatetime r.discharge_date) = r.discharge_date ∧
    optLt (toDatetime r.discharge_date) (toDatetime r.admission_date) = false ∧
    r.length_of_stay = optSub (toDatetime r.discharge_date) (toDatetime r.admission_date) ∧
    losInvalid r.length_of_stay = false := by
  unfold clean_visits_data at hr
  dsimp only at hr
  have hr4 := mem_of_mem_dedupFirst _ _ _ hr
  obtain ⟨hr3, hlos⟩ := List.mem_filter.mp hr4
  obtain ⟨r2, hr2, heq⟩ := List.mem_map.mp hr3
  obtain ⟨hr1, hlt⟩ := List.mem_filter.mp hr2
  obtain ⟨r0, _, heq0⟩ := List.mem_map.mp hr1
  have hadm : r.admission_date = embedDate (toDatetime r0.admission_date) := by
    rw [← heq, ← heq0]
  have hdis : r.discharge_date = embedDate (toDatetime r0.discharge_date) := by
    rw [← heq, ← heq0]
  have hadm2 : r2.admission_date = r.admission_date := by rw [← heq]
  have hdis2 : r2.discharge_date = r.discharge_date := by rw [← heq]
  refine ⟨?_, ?_, ?_, ?_, ?_⟩
  · rw [hadm, toDatetime_embedDate]
  · rw [hdis, toDatetime_embedDate]
  · rw [← hadm2, ← hdis2]
    simpa using hlt
  · rw [← heq]
  · rw [← heq] at hlos ⊢
    simpa using hlos

/-- The `visit_id` keys of a cleaned visits frame are pairwise distinct. -/
theorem clean_visits_nodup (report : List CleanEntry) (df : List VisitRow) :
    (((clean_visits_data report df).2).map (fun r => r.visit_id)).Nodup := by
  unfold clean_visits_data
  dsimp only
  exact nodup_keys_dedupFirst _ _

/-- Re-running `clean_visits_data` on its own output changes nothing and
appends an entry with zero removed rows. -/
theorem clean_visits_second_pass (report report2 : List CleanEntry) (df : List VisitRow) :
    clean_visits_data report2 ((clean_visits_data report df).2) =
      (report2 ++ [{ dataset := "visits",
                     initial_rows := ((clean_visits_data report df).2).length,
                     final_rows := ((clean_visits_data report df).2).length,
                     removed_rows := 0 }],
       (clean_visits_data report df).2) := by
  have hinv := fun r hr => clean_visits_mem report df r hr
  have hnd := clean_visits_nodup report df
  generalize hL : (clean_visits_data report df).2 = L at hinv hnd
  have step1 : L.map (fun r =>
      { r with admission_date := embedDate (toDatetime r.admission_date),
               discharge_date := embedDate (toDatetime r.discharge_date) }) = L := by
    apply map_eq_self_of_mem
    intro r hr
    obtain ⟨h1, h2, -, -, -⟩ := hinv r hr
    cases r
    simp_all
  have step2 : L.filter (fun r =>
      !(optLt (toDatetime r.discharge_date) (toDatetime r.admission_date))) = L := by
    apply List.filter_eq_self.mpr
    intro r hr
    obtain ⟨-, -, h3, -, -⟩ := hinv r hr
    simp [h3]
  have step3 : L.map (fun r =>
      { r with length_of_stay := optSub (toDatetime r.discharge_date) (toDatetime r.admission_date) }) = L := by
    apply map_eq_self_of_mem
    intro r hr
    obtain ⟨-, -, -, h4, -⟩ := hinv r hr
    cases r
    simp_all
  have step4 : L.filter (fun r => !(losInvalid r.length_of_stay)) = L := by
    apply List.filter_eq_self.mpr
    intro r hr
    obtain ⟨-, -, -, -, h5⟩ := hinv r hr
    simp [h5]
  have step5 : dedupFirst (fun r : VisitRow => r.visit_id) L = L :=
    dedupFirst_eq_self _ L hnd
  unfold clean_visits_data
  dsimp only
  rw [step1, step2, step3, step4, step5, sub_self]

/-- Every row surviving `clean_diagnoses_data` has a normalized (hence
non-missing) `icd_code` and a flag equal to the validator's verdict on it. -/
theorem clean_diagnoses_mem (report : List CleanEntry) (df : List DiagnosisRow)
    (r : DiagnosisRow) (hr : r ∈ (clean_diagnoses_data report df).2) :
    (∃ t, r.icd_code = some (pyUpperStr (pyStripStr t))) ∧
    r.icd_code_valid = validate_icd10_code r.icd_code := by
  unfold clean_diagnoses_data at hr
  dsimp only at hr
  have hr2 := mem_of_mem_dedupFirst _ _ _ hr
  obtain ⟨r2, hr1, heq⟩ := List.mem_map.mp hr2
  obtain ⟨r0, -, heq0⟩ := List.mem_map.mp hr1
  have hicd : r.icd_code = some (normIcd r0.icd_code) := by
    rw [← heq, ← heq0]
  constructor
  · exact ⟨pyStr r0.icd_code, hicd⟩
  · have h2 : r.icd_code = r2.icd_code := by rw [← heq]
    rw [← heq, ← h2]

theorem clean_diagnoses_nodup (report : List CleanEntry) (df : List DiagnosisRow) :
    (((clean_diagnoses_data report df).2).map
      (fun r => (r.visit_id, r.icd_code))).Nodup := by
  unfold clean_diagnoses_data
  dsimp only
  exact nodup_keys_dedupFirst _ _

/-- Re-running `clean_diagnoses_data` on its own output changes nothing and
appends an entry with zero removed rows. -/
theorem clean_diagnoses_second_pass (report report2 : List CleanEntry)
    (df : List DiagnosisRow) :
    clean_diagnoses_data report2 ((clean_diagnoses_data report df).2) =
      (report2 ++ [{ dataset := "diagnoses",
                     initial_rows := ((clean_diagnoses_data report df).2).length,
                     final_rows := ((clean_diagnoses_data report df).2).length,
                     removed_rows := 0 }],
       (clean_diagnoses_data report df).2) := by
  have hinv := fun r hr => clean_diagnoses_mem report df r hr
  have hnd := clean_diagnoses_nodup report df
  generalize hL : (clean_diagnoses_data report df).2 = L at hinv hnd
  have step1 : L.map (fun r => { r with icd_code := some (normIcd r.icd_code) }) = L := by
    apply map_eq_self_of_mem
    intro r hr
    obtain ⟨⟨t, ht⟩, -⟩ := hinv r hr
    have : normIcd r.icd_code = pyUpperStr (pyStripStr t) := by
      rw [ht]; exact upperStripStr_idem t
    cases r
    simp_all
  have step2 : L.map (fun r => { r with icd_code_valid := validate_icd10_code r.icd_code }) = L := by
    apply map_eq_self_of_mem
    intro r hr
    obtain ⟨-, hv⟩ := hinv r hr
    cases r
    simp_all
  have step3 : dedupFirst (fun r : DiagnosisRow => (r.visit_id, r.icd_code)) L = L :=
    dedupFirst_eq_self _ L hnd
  unfold clean_diagnoses_data
  dsimp only
  rw [step1, step2, step3, sub_self]

/-- Every row surviving `clean_medications_data` has a present `visit_id` and
a title-cased, stripped, present `medication_name`. -/
theorem clean_medications_mem (report : List CleanEntry) (df : List MedicationRow)
    (r : MedicationRow) (hr : r ∈ (clean_medications_data report df).2) :
    r.visit_id.isSome = true ∧ r.medication_name.isSome = true ∧
    r.medication_name.map (fun s => pyTitleStr (pyStripStr s)) = r.medication_name := by
  unfold clean_medications_data at hr
  dsimp only at hr
  have hr2 := mem_of_mem_dedupFirst _ _ _ hr
  obtain ⟨hr1, hsome⟩ := List.mem_filter.mp hr2
  obtain ⟨r0, -, heq0⟩ := List.mem_map.mp hr1
  have hsome' : r.visit_id.isSome = true ∧ r.medication_name.isSome = true := by
    have := hsome
    simp only [Bool.and_eq_true] at this
    exact this
  have hvid : r.visit_id.isSome = true := hsome'.1
  have hname : r.medication_name.isSome = true := hsome'.2
  refine ⟨hvid, hname, ?_⟩
  have hm : r.medication_name = r0.medication_name.map (fun s => pyTitleStr (pyStripStr s)) := by
    rw [← heq0]
  cases h0 : r0.medication_name with
  | none => rw [hm, h0]; rfl
  | some t =>
    rw [hm, h0]
    simp only [Option.map_some']
    exact congrArg some (titleStripStr_idem t)

theorem clean_medications_nodup (report : List CleanEntry) (df : List MedicationRow) :
    (((clean_medications_data report df).2).map
      (fun r => (r.visit_id, r.medication_name))).Nodup := by
  unfold clean_medications_data
  dsimp only
  exact nodup_keys_dedupFirst _ _

/-- Re-running `clean_medications_data` on its own output changes nothing and
appends an entry with zero removed rows. -/
theorem clean_medications_second_pass (report report2 : List CleanEntry)
    (df : List MedicationRow) :
    clean_medications_data report2 ((clean_medications_data report df).2) =
      (report2 ++ [{ dataset := "medications",
                     initial_rows := ((clean_medications_data report df).2).length,
                     final_rows := ((clean_medications_data report df).2).length,
                     removed_rows := 0 }],
       (clean_medications_data report df).2) := by
  have hinv := fun r hr => clean_medications_mem report df r hr
  have hnd := clean_medications_nodup report df
  generalize hL : (clean_medications_data report df).2 = L at hinv hnd
  have step1 : L.map (fun r =>
      { r with medication_name := r.medication_name.map (fun s => pyTitleStr (pyStripStr s)) }) = L := by
    apply map_eq_self_of_mem
    intro r hr
    obtain ⟨-, -, hmap⟩ := hinv r hr
    cases r
    simp_all
  have step2 : L.filter (fun r => r.visit_id.isSome && r.medication_name.isSome) = L := by
    apply List.filter_eq_self.mpr
    intro r hr
    obtain ⟨h1, h2, -⟩ := hinv r hr
    simp [h1, h2]
  have step3 : dedupFirst (fun r : MedicationRow => (r.visit_id, r.medication_name)) L = L :=
    dedupFirst_eq_self _ L hnd
  unfold clean_medications_data
  dsimp only
  rw [step1, step2, step3, sub_self]

/-- Every row surviving `clean_staff_data` has a title-cased, stripped
`staff_name` (or a missing one, which the title-casing skips). -/
theorem clean_staff_mem (report : List CleanEntry) (df : List StaffRow)
    (r : StaffRow) (hr : r ∈ (clean_staff_data report df).2) :
    r.staff_name.map (fun s => pyTitleStr (pyStripStr s)) = r.staff_name := by
  unfold clean_staff_data at hr
  dsimp only at hr
  have hr1 := mem_of_mem_dedupFirst _ _ _ hr
  obtain ⟨r0, -, heq0⟩ := List.mem_map.mp hr1
  have hm : r.staff_name = r0.staff_name.map (fun s => pyTitleStr (pyStripStr s)) := by
    rw [← heq0]
  cases h0 : r0.staff_name with
  | none => rw [hm, h0]; rfl
  | some t =>
    rw [hm, h0]
    simp only [Option.map_some']
    exact congrArg some (titleStripStr_idem t)

theorem clean_staff_nodup (report : List CleanEntry) (df : List StaffRow) :
    (((clean_staff_data report df).2).map (fun r => r.staff_id)).Nodup := by
  unfold clean_staff_data
  dsimp only
  exact nodup_keys_dedupFirst _ _

/-- Re-running `clean_staff_data` on its own output changes nothing and
appends an entry with zero removed rows. -/
theorem clean_staff_second_pass (report report2 : List CleanEntry) (df : List StaffRow) :
    clean_staff_data report2 ((clean_staff_data report df).2) =
      (report2 ++ [{ dataset := "staff",
                     initial_rows := ((clean_staff_data report df).2).length,
                     final_rows := ((clean_staff_data report df).2).length,
                     removed_rows := 0 }],
       (clean_staff_data report df).2) := by
  have hinv := fun r hr => clean_staff_mem report df r hr
  have hnd := clean_staff_nodup report df
  generalize hL : (clean_staff_data report df).2 = L at hinv hnd
  have step1 : L.map (fun r =>
      { r with staff_name := r.staff_name.map (fun s => pyTitleStr (pyStripStr s)) }) = L := by
    apply map_eq_self_of_mem
    intro r hr
    have hmap := hinv r hr
    cases r
    simp_all
  have step2 : dedupFirst (fun r : StaffRow => r.staff_id) L = L :=
    dedupFirst_eq_self _ L hnd
  unfold clean_staff_data
  dsimp only
  rw [step1, step2, sub_self]

/-- Anatomy of a successful `clean_patients_data` call: every surviving row
has a parsed, non-future `date_of_birth`, its `age` recomputed from it and
inside the configured bounds; patient ids are pairwise distinct; exactly one
report entry is appended, recording `initial - final` removals. -/
theorem clean_patients_ok_spec (now : Int) (report : List CleanEntry)
    (df : List PatientRow) (res : List CleanEntry × List PatientRow)
    (hok : clean_patients_data now report df = Except.ok res) :
    (∀ r ∈ res.2, ∃ d, r.date_of_birth = RawCell.date d ∧
        decide (now < d) = false ∧
        r.age = ageFrom now d ∧ MIN_AGE ≤ r.age ∧ r.age ≤ MAX_AGE) ∧
    (res.2.map (fun r => r.patient_id)).Nodup ∧
    res.1 = report ++ [{ dataset := "patients", initial_rows := df.length,
                         final_rows := res.2.length,
                         removed_rows := (df.length : Int) - (res.2.length : Int) }] ∧
    res.2.length ≤ df.length := by
  unfold clean_patients_data at hok
  dsimp only at hok
  split at hok
  · exact absurd hok (by simp)
  · rename_i hany
    rw [Except.ok.injEq] at hok
    subst hok
    have hnone : ∀ r ∈ _clean_date_of_birth now
        (_standardize_gender (_handle_missing_patient_info df)),
        (toDatetime r.date_of_birth).isNone = false := by
      intro r hr
      by_contra hcon
      exact hany (List.any_eq_true.mpr ⟨r, hr, by simpa using hcon⟩)
    refine ⟨?_, ?_, ?_, ?_⟩
    · intro r hr
      have hr5 := mem_of_mem_dedupFirst _ _ _ hr
      obtain ⟨hr4, hb⟩ := List.mem_filter.mp hr5
      obtain ⟨r3, hr3, heq⟩ := List.mem_map.mp hr4
      have hs := hnone r3 hr3
      obtain ⟨d, hd⟩ : ∃ d, toDatetime r3.date_of_birth = some d := by
        cases hmm : toDatetime r3.date_of_birth with
        | none => rw [hmm] at hs; simp at hs
        | some d => exact ⟨d, rfl⟩
      unfold _clean_date_of_birth at hr3
      dsimp only at hr3
      obtain ⟨hr3m, hfut⟩ := List.mem_filter.mp hr3
      obtain ⟨r2, -, heq2⟩ := List.mem_map.mp hr3m
      have hdob3 : r3.date_of_birth = RawCell.date d := by
        have : r3.date_of_birth = embedDate (toDatetime r2.date_of_birth) := by rw [← heq2]
        rw [this] at hd ⊢
        rw [toDatetime_embedDate] at hd
        rw [hd]
        rfl
      have hdob : r.date_of_birth = RawCell.date d := by rw [← heq]; exact hdob3
      refine ⟨d, hdob, ?_, ?_, ?_, ?_⟩
      · have : optGt (toDatetime r3.date_of_birth) (some now) = false := by
          simpa using hfut
        rw [hd] at this
        simpa [optGt] using this
      · have : r.age = ageFrom now ((toDatetime r3.date_of_birth).getD 0) := by rw [← heq]
        rw [hd] at this
        simpa using this
      · have hb' := hb
        simp only [Bool.and_eq_true, decide_eq_true_eq] at hb'
        exact hb'.1
      · have hb' := hb
        simp only [Bool.and_eq_true, decide_eq_true_eq] at hb'
        exact hb'.2
    · exact nodup_keys_dedupFirst _ _
    · have hlen : (_clean_date_of_birth now
          (_standardize_gender (_handle_missing_patient_info df))).length ≤ df.length := by
        unfold _clean_date_of_birth _standardize_gender _handle_missing_patient_info
        dsimp only
        refine le_trans (List.length_filter_le _ _) ?_
        simp
      rfl
    · refine le_trans (dedupFirst_length_le _ _) ?_
      refine le_trans (List.length_filter_le _ _) ?_
      rw [List.length_map]
      unfold _clean_date_of_birth _standardize_gender _handle_missing_patient_info
      dsimp only
      refine le_trans (List.length_filter_le _ _) ?_
      simp

/-- Re-running `clean_patients_data` on the rows of a successful run succeeds
again, removes no rows (the gender column is re-mapped, but no filter fires),
and appends an entry with zero removed rows. -/
theorem clean_patients_second_pass (now : Int) (report report2 : List CleanEntry)
    (df : List PatientRow) (res : List CleanEntry × List PatientRow)
    (hok : clean_patients_data now report df = Except.ok res) :
    clean_patients_data now report2 res.2 =
      Except.ok (report2 ++ [{ dataset := "patients", initial_rows := res.2.length,
                               final_rows := res.2.length, removed_rows := 0 }],
        _standardize_gender (_handle_missing_patient_info res.2)) := by
  obtain ⟨hmem, hnd, -, -⟩ := clean_patients_ok_spec now report df res hok
  generalize hL : res.2 = L at hmem hnd ⊢
  have hpres : ∀ r ∈ _standardize_gender (_handle_missing_patient_info L),
      ∃ d, r.date_of_birth = RawCell.date d ∧ decide (now < d) = false ∧
        r.age = ageFrom now d ∧ MIN_AGE ≤ r.age ∧ r.age ≤ MAX_AGE := by
    intro r hr
    unfold _standardize_gender _handle_missing_patient_info at hr
    rw [List.map_map] at hr
    obtain ⟨r0, hr0, heq⟩ := List.mem_map.mp hr
    obtain ⟨d, h1, h2, h3, h4, h5⟩ := hmem r0 hr0
    refine ⟨d, ?_, h2, ?_, ?_, ?_⟩ <;> rw [← heq] <;> assumption
  have hlen2 : (_standardize_gender (_handle_missing_patient_info L)).length = L.length := by
    unfold _standardize_gender _handle_missing_patient_info
    simp
  have hnd2 : ((_standardize_gender (_handle_missing_patient_info L)).map
      (fun r => r.patient_id)).Nodup := by
    unfold _standardize_gender _handle_missing_patient_info
    rw [List.map_map, List.map_map]
    exact hnd
  generalize hG : _standardize_gender (_handle_missing_patient_info L) = G at hpres hlen2 hnd2
  have hdob3 : _clean_date_of_birth now G = G := by
    unfold _clean_date_of_birth
    dsimp only
    have hmapid : G.map (fun r =>
        { r with date_of_birth := embedDate (toDatetime r.date_of_birth) }) = G := by
      apply map_eq_self_of_mem
      intro r hr
      obtain ⟨d, h1, -, -, -, -⟩ := hpres r hr
      cases r
      simp_all [toDatetime, embedDate]
    rw [hmapid]
    apply List.filter_eq_self.mpr
    intro r hr
    obtain ⟨d, h1, h2, -, -, -⟩ := hpres r hr
    simp [h1, toDatetime, optGt, h2]
  unfold clean_patients_data
  dsimp only
  rw [hG, hdob3]
  have hany : G.any (fun r => (toDatetime r.date_of_birth).isNone) = false := by
    rw [List.any_eq_false]
    intro r hr
    obtain ⟨d, h1, -, -, -, -⟩ := hpres r hr
    simp [h1, toDatetime]
  rw [if_neg (by simp [hany])]
  have hage : G.map (fun r =>
      { r with age := ageFrom now ((toDatetime r.date_of_birth).getD 0) }) = G := by
    apply map_eq_self_of_mem
    intro r hr
    obtain ⟨d, h1, -, h3, -, -⟩ := hpres r hr
    cases r
    simp_all [toDatetime]
  rw [hage]
  have hfilt : G.filter (fun r => decide (MIN_AGE ≤ r.age) && decide (r.age ≤ MAX_AGE)) = G := by
    apply List.filter_eq_self.mpr
    intro r hr
    obtain ⟨d, -, -, -, h4, h5⟩ := hpres r hr
    simp [h4, h5]
  rw [hfilt]
  rw [dedupFirst_eq_self _ G hnd2]
  rw [hlen2, sub_self]

theorem clean_visits_length_le (report : List CleanEntry) (df : List VisitRow) :
    ((clean_visits_data report df).2).length ≤ df.length := by
  unfold clean_visits_data
  dsimp only
  refine le_trans (dedupFirst_length_le _ _) ?_
  refine le_trans (List.length_filter_le _ _) ?_
  rw [List.length_map]
  refine le_trans (List.length_filter_le _ _) ?_
  simp

theorem clean_diagnoses_length_le (report : List CleanEntry) (df : List DiagnosisRow) :
    ((clean_diagnoses_data report df).2).length ≤ df.length := by
  unfold clean_diagnoses_data
  dsimp only
  refine le_trans (dedupFirst_length_le _ _) ?_
  simp

theorem clean_medications_length_le (report : List CleanEntry) (df : List MedicationRow) :
    ((clean_medications_data report df).2).length ≤ df.length := by
  unfold clean_medications_data
  dsimp only
  refine le_trans (dedupFirst_length_le _ _) ?_
  refine le_trans (List.length_filter_le _ _) ?_
  simp

theorem clean_staff_length_le (report : List CleanEntry) (df : List StaffRow) :
    ((clean_staff_data report df).2).length ≤ df.length := by
  unfold clean_staff_data
  dsimp only
  refine le_trans (dedupFirst_length_le _ _) ?_
  simp

/-- The referential-integrity scenario's patients set: ids P1, P2. -/
def scenarioPatients : List PatientRow :=
  [{ patient_id := "P1", gender := some "M", date_of_birth := RawCell.date 0, age := 30 },
   { patient_id := "P2", gender := some "F", date_of_birth := RawCell.date 0, age := 40 }]

/-- The referential-integrity scenario's visits set: (V1,P1), (V2,P3). -/
def scenarioVisits : List VisitRow :=
  [{ visit_id := "V1", patient_id := "P1", admission_date := RawCell.date 0,
     discharge_date := RawCell.date 1, length_of_stay := some 1 },
   { visit_id := "V2", patient_id := "P3", admission_date := RawCell.date 0,
     discharge_date := RawCell.date 1, length_of_stay := some 1 }]

/-! ## The claims -/

/-- C1. The claim says a row whose `date_of_birth` fails to parse is coerced
to a missing marker and then removed by normal missing/range filtering, and
that no exception ever propagates out of `clean_patients_data`.  The code
does coerce (first conjunct), but the coerced `NaT` survives the future-date
filter and reaches `calculate_age`, whose `astype(int)` raises pandas'
`IntCastingNaNError` on the NaN age — the cleaning call raises instead of
filtering (second conjunct): the claim describes the intended behaviour, the
code is a slip. -/
theorem C1_unparsable_dob_raises :
    toDatetime RawCell.unparsable = none ∧
    clean_patients_data 20000 []
        [{ patient_id := "P1", gender := some "M",
           date_of_birth := RawCell.unparsable, age := 0 }] =
      Except.error "IntCastingNaNError" :=
  ⟨rfl, rfl⟩

/-- C2. The claim says generating the validation report with zero
accumulated checks never crashes with a division by zero.  The summary line
of `generate_validation_report` computes `passed_checks/total_checks*100`
unguarded, so with an empty `validation_results` list — or results whose
check lists are all empty — the call dies with `ZeroDivisionError`. -/
theorem C2_zero_checks_division_crash :
    generate_validation_report [] = Except.error "ZeroDivisionError" ∧
    generate_validation_report [{ dataset := "referential_integrity", checks := [] }] =
      Except.error "ZeroDivisionError" :=
  ⟨rfl, rfl⟩

/-- C6, as stated: the validator upper-cases and trims its input before
matching, and satisfies the four test vectors. -/
def ClaimC6Prop : Prop :=
  (∀ s : String, validate_icd10_code (some s) = icdMatch (pyUpperStr (pyStripStr s))) ∧
  validate_icd10_code none = false ∧
  validate_icd10_code (some "E11.9") = true ∧
  validate_icd10_code (some "11.9") = false ∧
  validate_icd10_code (some "A00") = true

/-- C6 counterexample: `validate_icd10_code` does no upper-casing itself —
on the lower-case input `"e11.9"` it answers `false` although the
upper-cased, trimmed code matches the pattern. -/
theorem C6_counterexample : ¬ ClaimC6Prop := by
  intro h
  exact absurd (h.1 "e11.9") (by decide)

/-- C6 amended: the ICD-10 validator is a pure predicate matching the
configured pattern against the raw (stringified) input — upper-casing and
trimming happen in its caller `clean_diagnoses_data`, not in the validator —
it returns `false` (never an exception) for missing input, and the four
vectors hold as stated. -/
theorem C6_icd_validator_raw :
    (∀ s : String, validate_icd10_code (some s) = icdMatch s) ∧
    validate_icd10_code none = false ∧
    validate_icd10_code (some "E11.9") = true ∧
    validate_icd10_code (some "11.9") = false ∧
    validate_icd10_code (some "A00") = true ∧
    validate_icd10_code (some "e11.9") = false ∧
    normIcd (some " e11.9 ") = "E11.9" :=
  ⟨fun _ => rfl, rfl, by decide, by decide, by decide, by decide, by decide⟩

/-- C8. The outlier detector computes Q1 and Q3 by linear interpolation
(2 and 4 on the scenario series), bounds `[-1, 7]` with multiplier `1.5`,
and its mask flags exactly the value 100 on `[1,2,2,3,3,3,4,4,100]`. -/
theorem C8_outlier_detection :
    quantileLinear [1, 2, 2, 3, 3, 3, 4, 4, 100] (1 / 4) = 2 ∧
    quantileLinear [1, 2, 2, 3, 3, 3, 4, 4, 100] (3 / 4) = 4 ∧
    quantileLinear [1, 2, 2, 3, 3, 3, 4, 4, 100] (1 / 4) -
        (3 / 2) * (quantileLinear [1, 2, 2, 3, 3, 3, 4, 4, 100] (3 / 4) -
          quantileLinear [1, 2, 2, 3, 3, 3, 4, 4, 100] (1 / 4)) = -1 ∧
    quantileLinear [1, 2, 2, 3, 3, 3, 4, 4, 100] (3 / 4) +
        (3 / 2) * (quantileLinear [1, 2, 2, 3, 3, 3, 4, 4, 100] (3 / 4) -
          quantileLinear [1, 2, 2, 3, 3, 3, 4, 4, 100] (1 / 4)) = 7 ∧
    detect_outliers_iqr [1, 2, 2, 3, 3, 3, 4, 4, 100] (3 / 2) =
      [false, false, false, false, false, false, false, false, true] := by
  refine ⟨?_, ?_, ?_, ?_, ?_⟩
  · norm_num [quantileLinear, sortQ, insertSorted, List.getD]
    norm_num [Int.toNat]
  · norm_num [quantileLinear, sortQ, insertSorted, List.getD]
    norm_num [Int.toNat]
  · norm_num [quantileLinear, sortQ, insertSorted, List.getD]
    norm_num [Int.toNat]
  · norm_num [quantileLinear, sortQ, insertSorted, List.getD]
    norm_num [Int.toNat]
  · norm_num [detect_outliers_iqr, quantileLinear, sortQ, insertSorted, List.getD]
    norm_num [Int.toNat]

/-- C10. Diagnoses cleaning stringifies a missing `icd_code` into the
literal `"NAN"` (via `astype(str)`, then trim and upper-case), flags it
invalid without dropping the row, and consequently the cleaned `icd_code`
column holds no missing values at all. -/
theorem C10_missing_icd_to_NAN :
    (∀ (report : List CleanEntry) (df : List DiagnosisRow) (r : DiagnosisRow),
        r ∈ (clean_diagnoses_data report df).2 → ∃ s, r.icd_code = some s) ∧
    normIcd none = "NAN" ∧
    validate_icd10_code (some "NAN") = false ∧
    clean_diagnoses_data [] [{ visit_id := "V1", icd_code := none, icd_code_valid := true }] =
      ([{ dataset := "diagnoses", initial_rows := 1, final_rows := 1, removed_rows := 0 }],
       [{ visit_id := "V1", icd_code := some "NAN", icd_code_valid := false }]) := by
  refine ⟨?_, by decide, by decide, by rfl⟩
  intro report df r hr
  obtain ⟨⟨t, ht⟩, -⟩ := clean_diagnoses_mem report df r hr
  exact ⟨_, ht⟩

/-- C10 witness: the no-missing-codes invariant applied to the concrete
one-row frame whose `icd_code` is missing. -/
theorem C10_witness :
    ∃ s, ({ visit_id := "V1", icd_code := some "NAN", icd_code_valid := false }
      : DiagnosisRow).icd_code = some s :=
  C10_missing_icd_to_NAN.1 []
    [{ visit_id := "V1", icd_code := none, icd_code_valid := true }] _ (by decide)

/-- C5, as stated: the gender lookup is case-insensitive — every casing of
`m`/`male` maps to "Male", of `f`/`female` to "Female", of `o`/`other` to
"Other", and unmapped/missing values become "Unknown". -/
def ClaimC5Prop : Prop :=
  (∀ s : String, (pyLowerStr s = "m" ∨ pyLowerStr s = "male") →
      genderPipeline (some s) = "Male") ∧
  (∀ s : String, (pyLowerStr s = "f" ∨ pyLowerStr s = "female") →
      genderPipeline (some s) = "Female") ∧
  (∀ s : String, (pyLowerStr s = "o" ∨ pyLowerStr s = "other") →
      genderPipeline (some s) = "Other") ∧
  genderPipeline none = "Unknown"

/-- C5 counterexample: the table is an exact-token lookup, not a
case-insensitive one — the casing `"Male"` of `male` is unmapped and comes
out as `"Unknown"`, not `"Male"`. -/
theorem C5_counterexample : ¬ ClaimC5Prop := by
  intro h
  exact absurd (h.1 "Male" (Or.inr (by decide))) (by decide)

/-- C5 amended: gender standardization looks the raw value up in the exact
twelve-token table {M, m, male, MALE → Male; F, f, female, FEMALE → Female;
O, o, other, OTHER → Other}; any other value — including mixed casings such
as "Male" — and missing values map to "Unknown".  The last conjunct ties the
per-cell pipeline to the frame-level helpers `_handle_missing_patient_info`
and `_standardize_gender` as `clean_patients_data` composes them. -/
theorem C5_gender_mapping_exact :
    genderPipeline (some "M") = "Male" ∧ genderPipeline (some "m") = "Male" ∧
    genderPipeline (some "male") = "Male" ∧ genderPipeline (some "MALE") = "Male" ∧
    genderPipeline (some "F") = "Female" ∧ genderPipeline (some "f") = "Female" ∧
    genderPipeline (some "female") = "Female" ∧ genderPipeline (some "FEMALE") = "Female" ∧
    genderPipeline (some "O") = "Other" ∧ genderPipeline (some "o") = "Other" ∧
    genderPipeline (some "other") = "Other" ∧ genderPipeline (some "OTHER") = "Other" ∧
    genderPipeline none = "Unknown" ∧
    (∀ s : String, s ∉ gender_mapping.map Prod.fst → genderPipeline (some s) = "Unknown") ∧
    (∀ r : PatientRow, _standardize_gender (_handle_missing_patient_info [r]) =
      [{ r with gender := some (genderPipeline r.gender) }]) := by
  refine ⟨by decide, by decide, by decide, by decide, by decide, by decide, by decide,
    by decide, by decide, by decide, by decide, by decide, by decide, ?_, fun r => rfl⟩
  intro s hs
  have hnone : gender_mapping.lookup s = none := by
    rw [List.lookup_eq_none_iff]
    intro p hp
    simp only [bne_iff_ne, ne_eq]
    intro hcon
    exact hs (hcon ▸ List.mem_map_of_mem Prod.fst hp)
  simp [genderPipeline, standardizeGenderCell, hnone]

/-- C5 witness: an arbitrary unmapped token, `"X"`, standardizes to
"Unknown". -/
theorem C5_witness : genderPipeline (some "X") = "Unknown" :=
  C5_gender_mapping_exact.2.2.2.2.2.2.2.2.2.2.2.2.2.1 "X" (by decide)

/-- C4, as stated: every row of a cleaned visits frame has parsed dates in
order, a recomputed whole-day `length_of_stay`, and that stay in `[0, 365]`. -/
def ClaimC4Prop : Prop :=
  ∀ (report : List CleanEntry) (df : List VisitRow), ∀ r ∈ (clean_visits_data report df).2,
    ∃ a d, toDatetime r.admission_date = some a ∧ toDatetime r.discharge_date = some d ∧
      a ≤ d ∧ r.length_of_stay = some (d - a) ∧ 0 ≤ d - a ∧ d - a ≤ 365

/-- C4 counterexample: a row whose `admission_date` does not parse survives
cleaning — `NaT` comparisons are `False`, so neither the date-order filter
nor the length-of-stay filter fires — and sits in the cleaned frame with a
missing admission date and missing `length_of_stay`. -/
theorem C4_counterexample : ¬ ClaimC4Prop := by
  intro h
  obtain ⟨a, d, ha, -⟩ := h []
    [{ visit_id := "V1", patient_id := "P1", admission_date := RawCell.unparsable,
       discharge_date := RawCell.date 5, length_of_stay := none }]
    { visit_id := "V1", patient_id := "P1", admission_date := RawCell.missing,
      discharge_date := RawCell.date 5, length_of_stay := none }
    (by decide)
  simp [toDatetime] at ha

/-- C4 amended: for every cleaned visits row *whose two dates both parsed*,
`admission_date ≤ discharge_date`, `length_of_stay` is exactly the whole-day
difference of the parsed dates, and `0 ≤ length_of_stay ≤ 365`; rows with an
unparsable or missing date survive with a missing `length_of_stay`. -/
theorem C4_cleaned_visits_dates (report : List CleanEntry) (df : List VisitRow)
    (r : VisitRow) (hr : r ∈ (clean_visits_data report df).2) (a d : Int)
    (ha : toDatetime r.admission_date = some a)
    (hd : toDatetime r.discharge_date = some d) :
    a ≤ d ∧ r.length_of_stay = some (d - a) ∧ 0 ≤ d - a ∧ d - a ≤ 365 := by
  obtain ⟨-, -, h3, h4, h5⟩ := clean_visits_mem report df r hr
  rw [ha, hd] at h3 h4
  have hle : a ≤ d := by
    simp only [optLt, decide_eq_false_iff_not, not_lt] at h3
    exact h3
  rw [h4] at h5
  simp only [losInvalid, optLt, optGt, MIN_LOS_DAYS, MAX_LOS_DAYS, optSub,
    Bool.or_eq_false_iff, decide_eq_false_iff_not, not_lt] at h5
  exact ⟨hle, h4, by omega, by omega⟩

/-- C4 witness: the amended statement at a concrete admissible row. -/
theorem C4_witness :
    (0 : Int) ≤ 5 ∧
    ({ visit_id := "V1", patient_id := "P1", admission_date := RawCell.date 0,
       discharge_date := RawCell.date 5, length_of_stay := some 5 }
        : VisitRow).length_of_stay = some (5 - 0) ∧
    (0 : Int) ≤ 5 - 0 ∧ (5 : Int) - 0 ≤ 365 :=
  C4_cleaned_visits_dates []
    [{ visit_id := "V1", patient_id := "P1", admission_date := RawCell.date 0,
       discharge_date := RawCell.date 5, length_of_stay := none }]
    _ (by decide) 0 5 rfl rfl

/-- C7. The referential-integrity check passes iff every `patient_id` in the
visits frame occurs among the patients' ids; on failure the message carries
the exact orphan count; on patients {P1,P2} and visits {(V1,P1),(V2,P3)} it
fails reporting exactly 1 orphaned row. -/
theorem C7_referential_integrity :
    (∀ (results : List VResult) (patients : List PatientRow) (visits : List VisitRow)
        (c : VCheck),
        (validate_referential_integrity results patients visits).2.checks = [c] →
        (c.passed = true ↔
          ∀ v ∈ visits, v.patient_id ∈ patients.map (fun p => p.patient_id)) ∧
        (c.passed = false →
          c.message = s!"found {(visits.filter (fun v =>
            !((patients.map (fun p => p.patient_id)).contains v.patient_id))).length} orphaned patient ids in visits")) ∧
    (validate_referential_integrity [] scenarioPatients scenarioVisits).2 =
      { dataset := "referential_integrity",
        checks := [{ test := "visits_patient_id_exists", passed := false,
                     message := "found 1 orphaned patient ids in visits" }] } := by
  constructor
  · intro results patients visits c hc
    unfold validate_referential_integrity at hc
    dsimp only at hc
    have hc' := (List.cons.injEq _ _ _ _).mp hc
    rw [← hc'.1]
    constructor
    · simp only [List.all_eq_true]
      constructor
      · intro h v hv
        have := h v hv
        rw [List.contains_iff_exists_mem_beq] at this
        obtain ⟨p, hp, hbeq⟩ := this
        rw [beq_iff_eq] at hbeq
        exact hbeq ▸ hp
      · intro h v hv
        rw [List.contains_iff_exists_mem_beq]
        exact ⟨v.patient_id, h v hv, by simp⟩
    · intro hfalse
      dsimp only at hfalse
      rw [if_neg (by rw [hfalse]; exact Bool.false_ne_true)]
  · rfl

/-- C7 witness: the failure message of the scenario check, derived through
the general message law at the scenario input. -/
theorem C7_witness :
    ({ test := "visits_patient_id_exists", passed := false,
       message := "found 1 orphaned patient ids in visits" } : VCheck).message =
      s!"found {(scenarioVisits.filter (fun v =>
        !((scenarioPatients.map (fun p => p.patient_id)).contains v.patient_id))).length} orphaned patient ids in visits" :=
  (C7_referential_integrity.1 [] scenarioPatients scenarioVisits _ (by rfl)).2 (by rfl)

/-- C3. Cleaning is idempotent with respect to row removal: re-running a
dataset's cleaning call on rows it has already cleaned appends a report
entry with `removed_rows = 0` (and `final_rows = initial_rows`), for all
five cleaners.  For patients — whose cleaner can raise (see C1) — this holds
for every successful first pass, with the same reference time `now`. -/
theorem C3_cleaning_idempotent_row_removal :
    (∀ (now : Int) (rep rep2 : List CleanEntry) (df : List PatientRow)
        (res : List CleanEntry × List PatientRow),
        clean_patients_data now rep df = Except.ok res →
        ∃ rows2, clean_patients_data now rep2 res.2 =
          Except.ok (rep2 ++ [{ dataset := "patients", initial_rows := res.2.length,
                                final_rows := res.2.length, removed_rows := 0 }], rows2)) ∧
    (∀ (rep rep2 : List CleanEntry) (df : List VisitRow),
        clean_visits_data rep2 ((clean_visits_data rep df).2) =
          (rep2 ++ [{ dataset := "visits",
                      initial_rows := ((clean_visits_data rep df).2).length,
                      final_rows := ((clean_visits_data rep df).2).length,
                      removed_rows := 0 }], (clean_visits_data rep df).2)) ∧
    (∀ (rep rep2 : List CleanEntry) (df : List DiagnosisRow),
        clean_diagnoses_data rep2 ((clean_diagnoses_data rep df).2) =
          (rep2 ++ [{ dataset := "diagnoses",
                      initial_rows := ((clean_diagnoses_data rep df).2).length,
                      final_rows := ((clean_diagnoses_data rep df).2).length,
                      removed_rows := 0 }], (clean_diagnoses_data rep df).2)) ∧
    (∀ (rep rep2 : List CleanEntry) (df : List MedicationRow),
        clean_medications_data rep2 ((clean_medications_data rep df).2) =
          (rep2 ++ [{ dataset := "medications",
                      initial_rows := ((clean_medications_data rep df).2).length,
                      final_rows := ((clean_medications_data rep df).2).length,
                      removed_rows := 0 }], (clean_medications_data rep df).2)) ∧
    (∀ (rep rep2 : List CleanEntry) (df : List StaffRow),
        clean_staff_data rep2 ((clean_staff_data rep df).2) =
          (rep2 ++ [{ dataset := "staff",
                      initial_rows := ((clean_staff_data rep df).2).length,
                      final_rows := ((clean_staff_data rep df).2).length,
                      removed_rows := 0 }], (clean_staff_data rep df).2)) :=
  ⟨fun now rep rep2 df res hok =>
      ⟨_, clean_patients_second_pass now rep rep2 df res hok⟩,
   fun rep rep2 df => clean_visits_second_pass rep rep2 df,
   fun rep rep2 df => clean_diagnoses_second_pass rep rep2 df,
   fun rep rep2 df => clean_medications_second_pass rep rep2 df,
   fun rep rep2 df => clean_staff_second_pass rep rep2 df⟩

/-- C3 witness: patients idempotence instantiated on a concrete successful
first pass. -/
theorem C3_witness :
    ∃ rows2, clean_patients_data 20000 []
        [{ patient_id := "P1", gender := some "Male",
           date_of_birth := RawCell.date 0, age := 54 }] =
      Except.ok ([{ dataset := "patients", initial_rows := 1, final_rows := 1,
                    removed_rows := 0 }], rows2) :=
  C3_cleaning_idempotent_row_removal.1 20000 [] []
    [{ patient_id := "P1", gender := some "M", date_of_birth := RawCell.date 0, age := 0 }]
    ([{ dataset := "patients", initial_rows := 1, final_rows := 1, removed_rows := 0 }],
     [{ patient_id := "P1", gender := some "Male", date_of_birth := RawCell.date 0, age := 54 }])
    (by rfl)

/-- C9. Every cleaning call appends exactly one entry to the cleaning
report, recording `removed_rows = initial_rows - final_rows` with
`final_rows ≤ initial_rows` (no cleaning step increases the row count).
For patients this is stated for the calls that return (a raising call — see
C1 — appends nothing). -/
theorem C9_report_entry_invariant :
    (∀ (now : Int) (rep : List CleanEntry) (df : List PatientRow)
        (res : List CleanEntry × List PatientRow),
        clean_patients_data now rep df = Except.ok res →
        res.1 = rep ++ [{ dataset := "patients", initial_rows := df.length,
                          final_rows := res.2.length,
                          removed_rows := (df.length : Int) - (res.2.length : Int) }] ∧
        res.2.length ≤ df.length) ∧
    (∀ (rep : List CleanEntry) (df : List VisitRow),
        (clean_visits_data rep df).1 =
          rep ++ [{ dataset := "visits", initial_rows := df.length,
                    final_rows := ((clean_visits_data rep df).2).length,
                    removed_rows := (df.length : Int) - (((clean_visits_data rep df).2).length : Int) }] ∧
        ((clean_visits_data rep df).2).length ≤ df.length) ∧
    (∀ (rep : List CleanEntry) (df : List DiagnosisRow),
        (clean_diagnoses_data rep df).1 =
          rep ++ [{ dataset := "diagnoses", initial_rows := df.length,
                    final_rows := ((clean_diagnoses_data rep df).2).length,
                    removed_rows := (df.length : Int) - (((clean_diagnoses_data rep df).2).length : Int) }] ∧
        ((clean_diagnoses_data rep df).2).length ≤ df.length) ∧
    (∀ (rep : List CleanEntry) (df : List MedicationRow),
        (clean_medications_data rep df).1 =
          rep ++ [{ dataset := "medications", initial_rows := df.length,
                    final_rows := ((clean_medications_data rep df).2).length,
                    removed_rows := (df.length : Int) - (((clean_medications_data rep df).2).length : Int) }] ∧
        ((clean_medications_data rep df).2).length ≤ df.length) ∧
    (∀ (rep : List CleanEntry) (df : List StaffRow),
        (clean_staff_data rep df).1 =
          rep ++ [{ dataset := "staff", initial_rows := df.length,
                    final_rows := ((clean_staff_data rep df).2).length,
                    removed_rows := (df.length : Int) - (((clean_staff_data rep df).2).length : Int) }] ∧
        ((clean_staff_data rep df).2).length ≤ df.length) :=
  ⟨fun now rep df res hok =>
      ⟨(clean_patients_ok_spec now rep df res hok).2.2.1,
       (clean_patients_ok_spec now rep df res hok).2.2.2⟩,
   fun rep df => ⟨rfl, clean_visits_length_le rep df⟩,
   fun rep df => ⟨rfl, clean_diagnoses_length_le rep df⟩,
   fun rep df => ⟨rfl, clean_medications_length_le rep df⟩,
   fun rep df => ⟨rfl, clean_staff_length_le rep df⟩⟩

/-- C9 witness: the patients report-entry law instantiated on a concrete
successful call. -/
theorem C9_witness :
    (([{ dataset := "patients", initial_rows := 1, final_rows := 1, removed_rows := 0 }],
      [{ patient_id := "P1", gender := some "Male", date_of_birth := RawCell.date 0, age := 54 }])
        : List CleanEntry × List PatientRow).1 =
      [] ++ [{ dataset := "patients", initial_rows := 1, final_rows := 1,
               removed_rows := 0 }] ∧
    (([{ dataset := "patients", initial_rows := 1, final_rows := 1, removed_rows := 0 }],
      [{ patient_id := "P1", gender := some "Male", date_of_birth := RawCell.date 0, age := 54 }])
        : List CleanEntry × List PatientRow).2.length ≤ 1 :=
  C9_report_entry_invariant.1 20000 []
    [{ patient_id := "P1", gender := some "M", date_of_birth := RawCell.date 0, age := 0 }]
    ([{ dataset := "patients", initial_rows := 1, final_rows := 1, removed_rows := 0 }],
     [{ patient_id := "P1", gender := some "Male", date_of_birth := RawCell.date 0, age := 54 }])
    (by rfl)

end Hosp
